import Mathlib

/-!
# A verification development for the 3D scene viewer (`src/js/main.js`)

The viewer keeps a handful of module-level variables (`scene`, `camera`,
`controls`, `mixer`, `currentEscenario`, `currentPersonaje`, `isPaused`) and
mutates them from UI handlers, loader callbacks and the per-frame `animate`
tick.  The embedding below turns every handler and callback of the file into
a function on an explicit `State`.

* Numbers live in an arbitrary linearly ordered field `α`, so that the same
  definitions can be run over `ℚ` and reasoned about over `ℝ`.
* What the file borrows from its host (JavaScript built-ins and the three.js
  library) and cannot be read off `main.js` is gathered in `Host`:
  `Math.tan`, `Math.PI`, `String.prototype.toLowerCase`,
  `Box3.setFromObject` and `OrbitControls.update`.
* Effects on the outside world are recorded in the state: the console
  (`console.warn` / `console.error`), the `dispose()` calls received by
  geometries and materials, the `d-none` class of the loading overlay and the
  label of the play/pause button.  A call of `loader.load` is returned as a
  `LoadRequest`; its two callbacks are separate functions (`…OnLoad`,
  `…OnError`) that run later on whatever the state then is.
-/

namespace Viewer

/-! ## Data model -/

/-- JavaScript strings, as sequences of characters. -/
abbrev JSString := List Char

/-- The type `THREE.Vector3`. -/
structure Vector3 (α : Type) where
  x : α
  y : α
  z : α

/-- The method `Vector3.add`. -/
def Vector3.add {α : Type} [Add α] (a b : Vector3 α) : Vector3 α :=
  ⟨a.x + b.x, a.y + b.y, a.z + b.z⟩

/-- The method `Vector3.sub`. -/
def Vector3.sub {α : Type} [Sub α] (a b : Vector3 α) : Vector3 α :=
  ⟨a.x - b.x, a.y - b.y, a.z - b.z⟩

/-- The method `Vector3.multiplyScalar`. -/
def Vector3.multiplyScalar {α : Type} [Mul α] (a : Vector3 α) (k : α) : Vector3 α :=
  ⟨a.x * k, a.y * k, a.z * k⟩

/-- The type `THREE.Box3`: an axis-aligned box given by two corners. -/
structure Box3 (α : Type) where
  min : Vector3 α
  max : Vector3 α

/-- The method `Box3.isEmpty`: the box is empty when `max` is below `min` on some axis. -/
def Box3.isEmpty {α : Type} [LinearOrder α] (b : Box3 α) : Bool :=
  decide (b.max.x < b.min.x) || decide (b.max.y < b.min.y) || decide (b.max.z < b.min.z)

/-- The method `Box3.getSize`: `max - min`, and the zero vector for an empty box. -/
def Box3.getSize {α : Type} [LinearOrderedField α] (b : Box3 α) : Vector3 α :=
  if b.isEmpty then ⟨0, 0, 0⟩ else b.max.sub b.min

/-- The method `Box3.getCenter`: `(min + max) * 0.5`, and the zero vector for an empty box. -/
def Box3.getCenter {α : Type} [LinearOrderedField α] (b : Box3 α) : Vector3 α :=
  if b.isEmpty then ⟨0, 0, 0⟩ else (b.min.add b.max).multiplyScalar (1 / 2)

/-- The `material` property of a mesh: missing, one material, or an array of materials.
Materials and geometries are named by a number. -/
inductive MaterialSlot where
  | absent
  | single (m : Nat)
  | array (ms : List Nat)
  deriving DecidableEq, Repr

/-- An object that can receive `dispose()`. -/
inductive Disposable where
  | geometry (g : Nat)
  | material (m : Nat)
  deriving DecidableEq, Repr

/-- The own properties of a scene-graph node that `main.js` reads or writes. -/
structure NodeProps (α : Type) where
  id : Nat
  isMesh : Bool
  geometry : Option Nat
  material : MaterialSlot
  castShadow : Bool
  receiveShadow : Bool
  position : Vector3 α
  rotation : Vector3 α
  scale : Vector3 α

/-- The type `THREE.Object3D`: a node and its children. -/
inductive Object3D (α : Type) where
  | mk (props : NodeProps α) (children : List (Object3D α))

/-- The node at the root of an object. -/
def Object3D.props {α : Type} : Object3D α → NodeProps α
  | .mk p _ => p

/-- The `children` array of an object. -/
def Object3D.children {α : Type} : Object3D α → List (Object3D α)
  | .mk _ ch => ch

/-- The `id` of an object; two objects are the same object when their ids agree. -/
def Object3D.id {α : Type} (o : Object3D α) : Nat := o.props.id

mutual
/-- The method `Object3D.traverse` with a callback that acts on outside state: the
callback runs on the object itself, then on each child subtree in order. -/
def Object3D.traverse {α σ : Type} (f : NodeProps α → σ → σ) : Object3D α → σ → σ
  | .mk p ch, s => Object3D.traverseList f ch (f p s)
/-- The loop over `children` inside `Object3D.traverse`. -/
def Object3D.traverseList {α σ : Type} (f : NodeProps α → σ → σ) :
    List (Object3D α) → σ → σ
  | [], s => s
  | o :: os, s => Object3D.traverseList f os (Object3D.traverse f o s)
end

mutual
/-- The method `Object3D.traverse` with a callback that assigns to properties of the
visited node. -/
def Object3D.traverseUpdate {α : Type} (f : NodeProps α → NodeProps α) :
    Object3D α → Object3D α
  | .mk p ch => .mk (f p) (Object3D.traverseUpdateList f ch)
/-- The loop over `children` inside `Object3D.traverse`, for an assigning callback. -/
def Object3D.traverseUpdateList {α : Type} (f : NodeProps α → NodeProps α) :
    List (Object3D α) → List (Object3D α)
  | [] => []
  | o :: os => Object3D.traverseUpdate f o :: Object3D.traverseUpdateList f os
end

/-- The call `obj.scale.setScalar(k)`. -/
def Object3D.setScale {α : Type} (k : α) : Object3D α → Object3D α
  | .mk p ch => .mk { p with scale := ⟨k, k, k⟩ } ch

/-- The call `obj.position.set(x, y, z)`. -/
def Object3D.setPosition {α : Type} (x y z : α) : Object3D α → Object3D α
  | .mk p ch => .mk { p with position := ⟨x, y, z⟩ } ch

/-- The type `THREE.AnimationClip`, named by a number. -/
structure AnimationClip where
  uuid : Nat
  deriving DecidableEq, Repr

/-- The type `THREE.AnimationAction`: the clip it plays, whether the mixer currently
runs it, and its local time. -/
structure AnimationAction (α : Type) where
  clip : AnimationClip
  active : Bool
  time : α

/-- The type `THREE.AnimationMixer`: the `id` of the root object it animates (`none`
for a `null` root), the actions it has handed out, and its global time. -/
structure AnimationMixer (α : Type) where
  root : Option Nat
  actions : List (AnimationAction α)
  time : α

/-- The type `THREE.PerspectiveCamera`. -/
structure PerspectiveCamera (α : Type) where
  fov : α
  aspect : α
  near : α
  far : α
  position : Vector3 α

/-- The type `OrbitControls`. -/
structure OrbitControls (α : Type) where
  enableDamping : Bool
  target : Vector3 α

/-- What `main.js` takes from JavaScript and three.js without defining it. -/
structure Host (α : Type) where
  /-- The function `Math.tan`. -/
  tan : α → α
  /-- The constant `Math.PI`. -/
  PI : α
  /-- The method `String.prototype.toLowerCase`. -/
  toLowerCase : JSString → JSString
  /-- The world-space bounding box `new THREE.Box3().setFromObject(root)`. -/
  setFromObject : Object3D α → Box3 α
  /-- The method `OrbitControls.update`, acting on the camera and the controls. -/
  controlsUpdate : PerspectiveCamera α × OrbitControls α →
    PerspectiveCamera α × OrbitControls α

/-- A line written to the console. -/
inductive ConsoleEntry where
  | warn (msg : String)
  | error (msg : String) (err : String)
  deriving DecidableEq, Repr

/-- The two loaders. -/
inductive LoaderKind where
  | fbx
  | gltf
  deriving DecidableEq, Repr

/-- A call `loader.load(url, onLoad, undefined, onError)`. -/
structure LoadRequest where
  loader : LoaderKind
  url : JSString
  deriving DecidableEq, Repr

/-- What a loader hands to `onLoad`.  `root` is the loaded object (`res` itself for
the FBX loader, `res.scene` for the GLTF loader) and `animations` is `res.animations`,
which may be undefined. -/
structure LoadResult (α : Type) where
  root : Object3D α
  animations : Option (List AnimationClip)

/-- The module-level variables of `main.js`, together with the recorded effects. -/
structure State (α : Type) where
  /-- The array `scene.children`. -/
  scene : List (Object3D α)
  camera : PerspectiveCamera α
  controls : OrbitControls α
  mixer : Option (AnimationMixer α)
  currentEscenario : Option (Object3D α)
  currentPersonaje : Option (Object3D α)
  isPaused : Bool
  /-- Whether the loading overlay carries the class `d-none` (is hidden). -/
  loaderDNone : Bool
  /-- The `textContent` of the play/pause button. -/
  btnPlayPauseText : String
  /-- The console, oldest line first. -/
  console : List ConsoleEntry
  /-- The `dispose()` calls made so far, oldest first. -/
  disposed : List Disposable

/-! ## The three.js operations used by the file -/

section Library

variable {α : Type}

/-- The method `scene.remove(obj)`: `obj` leaves `scene.children`. -/
def sceneRemove (obj : Object3D α) (children : List (Object3D α)) : List (Object3D α) :=
  children.filter (fun c => c.id != obj.id)

/-- The method `scene.add(obj)`: `obj` is first detached from its parent, then pushed at
the end of `scene.children`. -/
def sceneAdd (obj : Object3D α) (children : List (Object3D α)) : List (Object3D α) :=
  sceneRemove obj children ++ [obj]

/-- The function `THREE.MathUtils.degToRad`: degrees times `Math.PI / 180`. -/
def degToRad [LinearOrderedField α] (H : Host α) (degrees : α) : α :=
  degrees * (H.PI / 180)

/-- The constructor `new THREE.AnimationMixer(root)`. -/
def AnimationMixer.create [LinearOrderedField α] (root : Option (Object3D α)) :
    AnimationMixer α :=
  { root := root.map Object3D.id, actions := [], time := 0 }

/-- The method `mixer.stopAllAction()`: every action of the mixer is stopped, that is
deactivated and reset. -/
def AnimationMixer.stopAllAction [LinearOrderedField α] (m : AnimationMixer α) :
    AnimationMixer α :=
  { m with actions := m.actions.map (fun a => { a with active := false, time := 0 }) }

/-- The method `mixer.clipAction(clip)`: the action the mixer already holds for this clip,
or a new idle one appended to its actions.  The action is returned as its position. -/
def AnimationMixer.clipAction [LinearOrderedField α] (m : AnimationMixer α)
    (clip : AnimationClip) : AnimationMixer α × Nat :=
  match m.actions.findIdx? (fun a => decide (a.clip = clip)) with
  | some i => (m, i)
  | none =>
    ({ m with actions := m.actions ++ [{ clip := clip, active := false, time := 0 }] },
      m.actions.length)

/-- The chain `action.reset().play()` on the action at position `i`: its time returns to
zero and the mixer starts running it. -/
def AnimationMixer.resetPlay [LinearOrderedField α] (m : AnimationMixer α) (i : Nat) :
    AnimationMixer α :=
  { m with actions := m.actions.modify (fun a => { a with time := 0, active := true }) i }

/-- The method `mixer.update(dt)`: the mixer time and the time of every running action
advance by `dt`.  The wrap-around of an action at the end of its clip is left out: `time`
is the time accrued since the last reset. -/
def AnimationMixer.update [LinearOrderedField α] (m : AnimationMixer α) (dt : α) :
    AnimationMixer α :=
  { m with
    time := m.time + dt
    actions := m.actions.map (fun a => if a.active then { a with time := a.time + dt } else a) }

/-- The clips of the actions a mixer is running. -/
def AnimationMixer.activeClips (m : AnimationMixer α) : List AnimationClip :=
  (m.actions.filter (fun a => a.active)).map (fun a => a.clip)

end Library

/-! ## The JavaScript string operations used by `getExt` -/

/-- The expression `s.split(sep)[0]`: what comes before the first `sep`. -/
def splitHead (sep : Char) (s : JSString) : JSString :=
  s.takeWhile (fun c => c != sep)

/-- The method `s.lastIndexOf(c)`: the position of the last `c`, and `-1` without one. -/
def lastIndexOf (c : Char) : JSString → Int
  | [] => -1
  | x :: xs =>
    let r := lastIndexOf c xs
    if 0 ≤ r then r + 1 else if x = c then 0 else -1

/-- The method `s.slice(start)`: a negative `start` counts from the end. -/
def slice (s : JSString) (start : Int) : JSString :=
  if start < 0 then s.drop (s.length - start.natAbs) else s.drop start.toNat

/-! ## The functions of `main.js` -/

section Program

variable {α : Type} [LinearOrderedField α]

/-- The function `setLoading(v)`: toggles the class `d-none` of the overlay to `!v`. -/
def setLoading (v : Bool) (s : State α) : State α :=
  { s with loaderDNone := !v }

/-- The callback of `clearObject` on one node: a mesh has its geometry disposed, then
each material of an array, or its single material. -/
def disposeNode (c : NodeProps α) (log : List Disposable) : List Disposable :=
  if c.isMesh then
    let log := match c.geometry with
      | some g => log ++ [Disposable.geometry g]
      | none => log
    match c.material with
    | .array ms => log ++ ms.map Disposable.material
    | .single m => log ++ [Disposable.material m]
    | .absent => log
  else log

/-- The function `clearObject(obj)`. -/
def clearObject (obj : Option (Object3D α)) (s : State α) : State α :=
  match obj with
  | none => s
  | some o =>
    let s := { s with scene := sceneRemove o s.scene }
    { s with disposed := o.traverse disposeNode s.disposed }

/-- The function `getExt(url)`. -/
def getExt (H : Host α) (url : JSString) : JSString :=
  let q := splitHead '?' url
  H.toLowerCase (slice q (lastIndexOf '.' q + 1))

/-- The function `fitSceneToCamera(root)`. -/
def fitSceneToCamera (H : Host α) (root : Object3D α) (s : State α) : State α :=
  let box := H.setFromObject root
  let size := box.getSize
  let center := box.getCenter
  let controls := { s.controls with target := center }
  let maxDim := max size.x (max size.y size.z)
  let fitDist := maxDim / (2 * H.tan (degToRad H (s.camera.fov / 2)))
  let camera := { s.camera with position := center.add ⟨0, 16 / 10, fitDist * (1 / 2)⟩ }
  let cc := H.controlsUpdate (camera, controls)
  { s with camera := cc.1, controls := cc.2 }

/-- The test `ext === 'fbx'` on the extension of `url`, as both loading functions make it. -/
def useFBX (H : Host α) (url : JSString) : Bool :=
  decide (getExt H url = "fbx".toList)

/-- The function `cargarEscenario(url)` up to and including the call of `loader.load`. -/
def cargarEscenario (H : Host α) (url : JSString) (s : State α) :
    State α × Option LoadRequest :=
  if url = [] then (s, none)
  else
    let s := setLoading true s
    let loader := if useFBX H url then LoaderKind.fbx else LoaderKind.gltf
    (s, some { loader := loader, url := url })

/-- The success callback of `cargarEscenario`; `fbx` is the `useFBX` it closes over. -/
def cargarEscenarioOnLoad (H : Host α) (fbx : Bool) (res : LoadResult α) (s : State α) :
    State α :=
  let s := clearObject s.currentEscenario s
  let obj := res.root
  let obj := obj.traverseUpdate (fun c => { c with castShadow := true, receiveShadow := true })
  let obj := if fbx then obj.setScale (1 / 100) else obj
  let obj := obj.setPosition 0 0 0
  let s := { s with currentEscenario := some obj, scene := sceneAdd obj s.scene }
  let s := fitSceneToCamera H obj s
  setLoading false s

/-- The error callback of `cargarEscenario`. -/
def cargarEscenarioOnError (err : String) (s : State α) : State α :=
  let s := { s with console := s.console ++ [ConsoleEntry.error "Error cargando escenario:" err] }
  setLoading false s

/-- The function `cargarPersonaje(url)` up to and including the call of `loader.load`. -/
def cargarPersonaje (H : Host α) (url : JSString) (s : State α) :
    State α × Option LoadRequest :=
  if url = [] then (s, none)
  else
    let s := setLoading true s
    let loader := if useFBX H url then LoaderKind.fbx else LoaderKind.gltf
    (s, some { loader := loader, url := url })

/-- The success callback of `cargarPersonaje`; `fbx` is the `useFBX` it closes over. -/
def cargarPersonajeOnLoad (fbx : Bool) (res : LoadResult α) (s : State α) : State α :=
  let s := clearObject s.currentPersonaje s
  let obj := res.root
  let obj := obj.traverseUpdate (fun c => { c with castShadow := true })
  let obj := if fbx then obj.setScale (1 / 100) else obj
  let obj := obj.setPosition 0 0 0
  let s := { s with currentPersonaje := some obj, scene := sceneAdd obj s.scene }
  let clips := if fbx then res.animations.getD [] else res.animations.getD []
  let s :=
    match clips with
    | [] => s
    | clip0 :: _ =>
      let stopped := s.mixer.map AnimationMixer.stopAllAction
      let s := { s with mixer := stopped }
      let m : AnimationMixer α := AnimationMixer.create s.currentPersonaje
      let (m, action) := m.clipAction clip0
      { s with mixer := some (m.resetPlay action) }
  setLoading false s

/-- The error callback of `cargarPersonaje`. -/
def cargarPersonajeOnError (err : String) (s : State α) : State α :=
  let s := { s with console := s.console ++ [ConsoleEntry.error "Error cargando personaje:" err] }
  setLoading false s

/-- The function `cargarAnimacionFBX(url)` up to and including the call of `loader.load`. -/
def cargarAnimacionFBX (url : JSString) (s : State α) : State α × Option LoadRequest :=
  match s.currentPersonaje with
  | none =>
    ({ s with console := s.console ++
        [ConsoleEntry.warn "Primero carga un personaje para aplicar la animación."] }, none)
  | some _ =>
    let s := setLoading true s
    (s, some { loader := LoaderKind.fbx, url := url })

/-- The success callback of `cargarAnimacionFBX`. -/
def cargarAnimacionFBXOnLoad (animObj : LoadResult α) (s : State α) : State α :=
  let clips := animObj.animations.getD []
  match clips with
  | [] =>
    let s := { s with console := s.console ++
      [ConsoleEntry.warn "La animación FBX no contiene AnimationClips."] }
    setLoading false s
  | clip0 :: _ =>
    let m : AnimationMixer α := match s.mixer with
      | some m => m
      | none => AnimationMixer.create s.currentPersonaje
    let m := m.stopAllAction
    let (m, action) := m.clipAction clip0
    let s := { s with mixer := some (m.resetPlay action) }
    setLoading false s

/-- The error callback of `cargarAnimacionFBX`. -/
def cargarAnimacionFBXOnError (err : String) (s : State α) : State α :=
  let s := { s with console := s.console ++
    [ConsoleEntry.error "Error cargando animación FBX:" err] }
  setLoading false s

/-- The click handler of `btnCentrar`. -/
def btnCentrarOnClick (s : State α) : State α :=
  { s with
    controls := { s.controls with target := ⟨0, 1, 0⟩ }
    camera := { s.camera with position := ⟨0, 16 / 10, 4⟩ } }

/-- The click handler of `btnPlayPause`. -/
def btnPlayPauseOnClick (s : State α) : State α :=
  let s := { s with isPaused := !s.isPaused }
  { s with btnPlayPauseText := if s.isPaused then "Reanudar animación" else "Pausar animación" }

/-- The function `onResize()`, for a stage of `w` by `h` pixels: the sizes handed to the
renderer and to the stereo effect are outside the state. -/
def onResize (w h : α) (s : State α) : State α :=
  { s with camera := { s.camera with aspect := w / h } }

/-- The two ways `animate` draws a frame. -/
inductive RenderPath where
  | sideBySide
  | mono
  deriving DecidableEq, Repr

/-- The function `animate()`: one tick, `dt` being `clock.getDelta()`, `chkSBS` the
checkbox and `xrPresenting` the flag `renderer.xr.isPresenting`.  The frame drawn is
returned beside the state. -/
def animate (H : Host α) (dt : α) (chkSBS xrPresenting : Bool) (s : State α) :
    State α × RenderPath :=
  let s := match s.mixer with
    | some m => if !s.isPaused then { s with mixer := some (m.update dt) } else s
    | none => s
  let cc := H.controlsUpdate (s.camera, s.controls)
  let s := { s with camera := cc.1, controls := cc.2 }
  if chkSBS && !xrPresenting then (s, RenderPath.sideBySide) else (s, RenderPath.mono)

/-- What `init` reads from the page: the size of the stage, whether the overlay starts
hidden, and the initial label of the play/pause button. -/
structure Dom (α : Type) where
  clientWidth : α
  clientHeight : α
  loaderDNone : Bool
  btnPlayPauseText : String

/-- An object without geometry, at the origin, with unit scale. -/
def plainNode (id : Nat) : NodeProps α :=
  { id := id, isMesh := false, geometry := none, material := MaterialSlot.absent,
    castShadow := false, receiveShadow := false,
    position := ⟨0, 0, 0⟩, rotation := ⟨0, 0, 0⟩, scale := ⟨1, 1, 1⟩ }

/-- The ambient light `init` adds to the scene. -/
def ambientLight : Object3D α := .mk (plainNode 1) []

/-- The directional light `init` adds to the scene. -/
def directionalLight : Object3D α :=
  .mk { plainNode 2 with position := ⟨5, 10, 5⟩, castShadow := true } []

/-- The floor `init` adds to the scene: a mesh with its own geometry and material. -/
def floor (H : Host α) : Object3D α :=
  .mk { plainNode 3 with
        isMesh := true, geometry := some 0, material := MaterialSlot.single 0,
        rotation := ⟨-H.PI / 2, 0, 0⟩, receiveShadow := true } []

/-- The module-level declarations followed by `init()` up to the two default loads. -/
def initialState (H : Host α) (dom : Dom α) : State α :=
  { scene := [ambientLight, directionalLight, floor H]
    camera := { fov := 70, aspect := dom.clientWidth / dom.clientHeight,
                near := 1 / 10, far := 1000, position := ⟨0, 16 / 10, 4⟩ }
    controls := { enableDamping := true, target := ⟨0, 1, 0⟩ }
    mixer := none
    currentEscenario := none
    currentPersonaje := none
    isPaused := false
    loaderDNone := dom.loaderDNone
    btnPlayPauseText := dom.btnPlayPauseText
    console := []
    disposed := [] }

/-- The function `init()`: the state it leaves and the two default loads it starts. -/
def init (H : Host α) (dom : Dom α) : State α × List LoadRequest :=
  let s := initialState H dom
  let r1 := cargarEscenario H "./practica1.glb".toList s
  let r2 := cargarPersonaje H "./models/Ch44_nonPBR.fbx".toList r1.1
  (r2.1, r1.2.toList ++ r2.2.toList)

/-! ## Runs of the viewer -/

/-- What can happen after `init`: a click, a resize, a frame, a call of one of the three
loading functions, or the completion of a load. -/
inductive Event (α : Type) where
  | centrar
  | playPause
  | resize (w h : α)
  | tick (dt : α) (chkSBS xrPresenting : Bool)
  | loadEscenario (url : JSString)
  | loadPersonaje (url : JSString)
  | loadAnimacion (url : JSString)
  | escenarioLoaded (fbx : Bool) (res : LoadResult α)
  | escenarioFailed (err : String)
  | personajeLoaded (fbx : Bool) (res : LoadResult α)
  | personajeFailed (err : String)
  | animacionLoaded (animObj : LoadResult α)
  | animacionFailed (err : String)

/-- The effect of one event on the state. -/
def step (H : Host α) (s : State α) : Event α → State α
  | .centrar => btnCentrarOnClick s
  | .playPause => btnPlayPauseOnClick s
  | .resize w h => onResize w h s
  | .tick dt chk xr => (animate H dt chk xr s).1
  | .loadEscenario url => (cargarEscenario H url s).1
  | .loadPersonaje url => (cargarPersonaje H url s).1
  | .loadAnimacion url => (cargarAnimacionFBX url s).1
  | .escenarioLoaded fbx res => cargarEscenarioOnLoad H fbx res s
  | .escenarioFailed err => cargarEscenarioOnError err s
  | .personajeLoaded fbx res => cargarPersonajeOnLoad fbx res s
  | .personajeFailed err => cargarPersonajeOnError err s
  | .animacionLoaded animObj => cargarAnimacionFBXOnLoad animObj s
  | .animacionFailed err => cargarAnimacionFBXOnError err s

/-- The state after a sequence of events, oldest first. -/
def run (H : Host α) (evs : List (Event α)) (s : State α) : State α :=
  evs.foldl (step H) s

/-- The ids of the objects delivered by the completed scenario loads of a run. -/
def escenarioIds : List (Event α) → List Nat
  | [] => []
  | .escenarioLoaded _ res :: evs => res.root.id :: escenarioIds evs
  | _ :: evs => escenarioIds evs

/-- The ids of the objects delivered by the completed character loads of a run. -/
def personajeIds : List (Event α) → List Nat
  | [] => []
  | .personajeLoaded _ res :: evs => res.root.id :: personajeIds evs
  | _ :: evs => personajeIds evs

/-- Every completed scenario or character load of the run delivered a fresh object: the
ids delivered are pairwise distinct. -/
def FreshLoads (evs : List (Event α)) : Prop :=
  (escenarioIds evs ++ personajeIds evs).Nodup

mutual
/-- The nodes of an object in the order `traverse` visits them. -/
def Object3D.nodes : Object3D α → List (NodeProps α)
  | .mk p ch => p :: Object3D.nodesList ch
/-- The nodes of a list of objects in the order `traverse` visits them. -/
def Object3D.nodesList : List (Object3D α) → List (NodeProps α)
  | [] => []
  | o :: os => Object3D.nodes o ++ Object3D.nodesList os
end

/-- The geometry and the materials one node owns. -/
def NodeProps.resources (c : NodeProps α) : List Disposable :=
  (c.geometry.toList.map Disposable.geometry) ++
    (match c.material with
     | .absent => []
     | .single m => [Disposable.material m]
     | .array ms => ms.map Disposable.material)

/-- The geometry and materials of every mesh among an object and its descendants. -/
def Object3D.meshResources (o : Object3D α) : List Disposable :=
  (o.nodes.filter (fun c => c.isMesh)).flatMap NodeProps.resources

end Program

/-! ## A concrete host over the rationals, for running the definitions -/

/-- A host with the given tangent, `Math.PI` and bounding box for every object, ASCII
lower-casing, and controls that are at rest (`update` moves nothing). -/
def hostWith {α : Type} (tan : α → α) (PI : α) (box : Box3 α) : Host α :=
  { tan := tan
    PI := PI
    toLowerCase := fun s => s.map Char.toLower
    setFromObject := fun _ => box
    controlsUpdate := fun cc => cc }

/-- A host over `ℚ`, with stand-ins for the trigonometry, which no proof below relies on. -/
def hostQ : Host ℚ := hostWith (fun x => x) (22 / 7) ⟨⟨0, 0, 0⟩, ⟨1, 1, 1⟩⟩

/-- A page with an 800 by 600 stage. -/
def domQ : Dom ℚ :=
  { clientWidth := 800, clientHeight := 600, loaderDNone := true,
    btnPlayPauseText := "Pausar animación" }

/-- A single mesh with the given id, and geometry and material named after it. -/
def meshQ (id : Nat) : Object3D ℚ :=
  .mk { plainNode id with isMesh := true, geometry := some id,
                          material := MaterialSlot.single id } []

/-! ## Invariants and concrete inputs -/

/-- The scene holds, among the objects delivered as scenarios, exactly the occupant of the
scenario slot, and among those delivered as characters, exactly the occupant of the
character slot. -/
def SlotsInv {α : Type} (E P : List Nat) (s : State α) : Prop :=
  (s.scene.map Object3D.id).filter (fun i => decide (i ∈ E)) =
      (s.currentEscenario.map Object3D.id).toList ∧
  (s.scene.map Object3D.id).filter (fun i => decide (i ∈ P)) =
      (s.currentPersonaje.map Object3D.id).toList

/-- At most one action of the mixer, if there is one, is running. -/
def MixerInv {α : Type} (s : State α) : Prop :=
  ∀ m, s.mixer = some m → m.activeClips.length ≤ 1

instance {α : Type} (evs : List (Event α)) : Decidable (FreshLoads evs) := by
  unfold FreshLoads
  infer_instance

/-- A load result over `ℚ`: the mesh `meshQ id` and the given clips. -/
def resQ (id : Nat) (animations : Option (List AnimationClip)) : LoadResult ℚ :=
  { root := meshQ id, animations := animations }

/-- The state right after `init()` on the page `domQ`. -/
def startQ : State ℚ := (init hostQ domQ).1

/-- The state `startQ` after one click on the play/pause button. -/
def pausedQ : State ℚ := btnPlayPauseOnClick startQ

/-- A run in which a scenario and a character have been loaded. -/
def loadedQ : List (Event ℚ) :=
  [Event.escenarioLoaded false (resQ 10 none),
   Event.personajeLoaded true (resQ 11 (some [⟨0⟩]))]

/-- A run in which a character with a clip is replaced by a character without clips. -/
def replacedQ : List (Event ℚ) :=
  [Event.personajeLoaded true (resQ 10 (some [⟨0⟩])),
   Event.loadPersonaje "b.glb".toList,
   Event.personajeLoaded false (resQ 11 (some []))]

/-- The run `replacedQ` followed by the load of an animation-only asset. -/
def replacedThenAnimatedQ : List (Event ℚ) :=
  replacedQ ++
    [Event.loadAnimacion "walk.fbx".toList,
     Event.animacionLoaded (resQ 12 (some [⟨1⟩]))]

/-! ## Lemmas on the string operations -/

theorem lastIndexOf_of_not_mem (c : Char) (s : JSString) (h : c ∉ s) :
    lastIndexOf c s = -1 := by
  induction s with
  | nil => rfl
  | cons x xs ih =>
    have hx : x ≠ c := fun e => h (by simp [e])
    have hxs : c ∉ xs := fun e => h (by simp [e])
    simp [lastIndexOf, ih hxs, hx]

theorem lastIndexOf_append (c : Char) (base ext : JSString) (h : c ∉ ext) :
    lastIndexOf c (base ++ c :: ext) = base.length := by
  induction base with
  | nil => simp [lastIndexOf, lastIndexOf_of_not_mem c ext h]
  | cons x xs ih =>
    have h0 : (0 : Int) ≤ (xs.length : Int) := Int.natCast_nonneg _
    show (if 0 ≤ lastIndexOf c (xs ++ c :: ext) then lastIndexOf c (xs ++ c :: ext) + 1
      else if x = c then 0 else -1) = ((xs.length + 1 : Nat) : Int)
    rw [ih, if_pos h0]
    push_cast
    rfl

theorem splitHead_of_not_mem (sep : Char) (s : JSString) (h : sep ∉ s) :
    splitHead sep s = s := by
  unfold splitHead
  rw [List.takeWhile_eq_self_iff]
  intro x hx
  have : x ≠ sep := fun e => h (e ▸ hx)
  simpa using this

theorem splitHead_append (sep : Char) (s t : JSString) (h : sep ∉ s) :
    splitHead sep (s ++ sep :: t) = s := by
  induction s with
  | nil => simp [splitHead]
  | cons x xs ih =>
    have hx : x ≠ sep := fun e => h (by simp [e])
    have hxs : sep ∉ xs := fun e => h (by simp [e])
    have := ih hxs
    simp only [splitHead] at this ⊢
    simp [List.takeWhile_cons, hx, this]

theorem slice_ext (base ext : JSString) :
    slice (base ++ '.' :: ext) ((base.length : Int) + 1) = ext := by
  unfold slice
  have h1 : ¬ ((base.length : Int) + 1 < 0) := by omega
  rw [if_neg h1]
  have h2 : ((base.length : Int) + 1).toNat = base.length + 1 := by omega
  rw [h2]
  simp

theorem getExt_plain {α : Type} [LinearOrderedField α] (H : Host α) (base ext : JSString)
    (hb : '?' ∉ base) (hd : '.' ∉ ext) (hq : '?' ∉ ext) :
    getExt H (base ++ '.' :: ext) = H.toLowerCase ext := by
  have hs : splitHead '?' (base ++ '.' :: ext) = base ++ '.' :: ext := by
    apply splitHead_of_not_mem
    simp [hb, hq]
  simp only [getExt, hs, lastIndexOf_append '.' base ext hd, slice_ext]

theorem getExt_query {α : Type} [LinearOrderedField α] (H : Host α) (base ext query : JSString)
    (hb : '?' ∉ base) (hd : '.' ∉ ext) (hq : '?' ∉ ext) :
    getExt H (base ++ '.' :: ext ++ '?' :: query) = H.toLowerCase ext := by
  have hs : splitHead '?' (base ++ '.' :: ext ++ '?' :: query) = base ++ '.' :: ext := by
    have := splitHead_append '?' (base ++ '.' :: ext) query (by simp [hb, hq])
    simpa using this
  simp only [getExt, hs, lastIndexOf_append '.' base ext hd, slice_ext]

/-! ## Lemmas on the animation mixer -/

section MixerLemmas
variable {α : Type}

theorem filter_active_of_inactive (l : List (AnimationAction α))
    (hl : ∀ a ∈ l, a.active = false) : l.filter (fun a => a.active) = [] := by
  rw [List.filter_eq_nil_iff]
  intro a ha
  simp [hl a ha]

theorem filter_active_modify (f : AnimationAction α → AnimationAction α)
    (hf : ∀ a, (f a).active = true) :
    ∀ (l : List (AnimationAction α)), (∀ a ∈ l, a.active = false) →
      ∀ (i : Nat) (h : i < l.length),
        (l.modify f i).filter (fun a => a.active) = [f (l.get ⟨i, h⟩)]
  | [], _, i, h => absurd h (Nat.not_lt_zero i)
  | a :: l, hl, 0, _ => by
    have hl2 : ∀ b ∈ l, b.active = false := fun b hb => hl b (List.mem_cons_of_mem _ hb)
    simp [List.filter_cons, hf, filter_active_of_inactive l hl2]
  | a :: l, hl, i + 1, h => by
    have hl2 : ∀ b ∈ l, b.active = false := fun b hb => hl b (List.mem_cons_of_mem _ hb)
    have ha : a.active = false := hl a (List.mem_cons_self _ _)
    have ih := filter_active_modify f hf l hl2 i (Nat.lt_of_succ_lt_succ h)
    simp [List.filter_cons, ha, ih]

theorem stopAllAction_inactive [LinearOrderedField α] (m : AnimationMixer α) :
    ∀ a ∈ m.stopAllAction.actions, a.active = false := by
  intro a ha
  simp only [AnimationMixer.stopAllAction, List.mem_map] at ha
  obtain ⟨b, _, rfl⟩ := ha
  rfl

/-- Starting a clip on a mixer none of whose actions runs leaves exactly that clip
running. -/
theorem activeClips_clipAction_resetPlay [LinearOrderedField α] (m : AnimationMixer α)
    (c : AnimationClip) (hm : ∀ a ∈ m.actions, a.active = false) :
    ((m.clipAction c).1.resetPlay (m.clipAction c).2).activeClips = [c] := by
  unfold AnimationMixer.clipAction
  cases hfi : m.actions.findIdx? (fun a => decide (a.clip = c)) with
  | some i =>
    obtain ⟨hi, hp, _⟩ := List.findIdx?_eq_some_iff_getElem.mp hfi
    simp only [AnimationMixer.resetPlay, AnimationMixer.activeClips]
    rw [filter_active_modify (fun a : AnimationAction α => { a with time := 0, active := true })
      (fun _ => rfl) m.actions hm i hi]
    simpa using hp
  | none =>
    simp only [AnimationMixer.resetPlay, AnimationMixer.activeClips]
    have hi : m.actions.length <
        (m.actions ++ [({ clip := c, active := false, time := 0 } : AnimationAction α)]).length := by
      simp
    rw [filter_active_modify (fun a : AnimationAction α => { a with time := 0, active := true })
      (fun _ => rfl) _ _ m.actions.length hi]
    · simp
    · intro a ha
      rcases List.mem_append.mp ha with h | h
      · exact hm a h
      · simp at h; rw [h]

theorem activeClips_update [LinearOrderedField α] (m : AnimationMixer α) (dt : α) :
    (m.update dt).activeClips = m.activeClips := by
  simp only [AnimationMixer.update, AnimationMixer.activeClips]
  induction m.actions with
  | nil => rfl
  | cons a l ih =>
    cases ha : a.active <;> simp [List.filter_cons, ha] <;> simpa using ih

end MixerLemmas

/-! ## Lemmas on objects and on `clearObject` -/

section ObjectLemmas
variable {α : Type}

theorem traverseUpdate_id (f : NodeProps α → NodeProps α) (o : Object3D α) :
    (o.traverseUpdate f).id = (f o.props).id := by
  cases o
  rfl

theorem setScale_id (k : α) (o : Object3D α) : (o.setScale k).id = o.id := by
  cases o
  rfl

theorem setPosition_id (x y z : α) (o : Object3D α) : (o.setPosition x y z).id = o.id := by
  cases o
  rfl

mutual
theorem traverse_eq_foldl {σ : Type} (f : NodeProps α → σ → σ) :
    ∀ (o : Object3D α) (s : σ), o.traverse f s = o.nodes.foldl (fun t p => f p t) s
  | .mk p ch, s => by
    simp only [Object3D.traverse, Object3D.nodes, List.foldl_cons]
    exact traverseList_eq_foldl f ch (f p s)
theorem traverseList_eq_foldl {σ : Type} (f : NodeProps α → σ → σ) :
    ∀ (os : List (Object3D α)) (s : σ),
      Object3D.traverseList f os s = (Object3D.nodesList os).foldl (fun t p => f p t) s
  | [], s => by simp [Object3D.traverseList, Object3D.nodesList]
  | o :: os, s => by
    simp only [Object3D.traverseList, Object3D.nodesList, List.foldl_append]
    rw [traverse_eq_foldl f o s]
    exact traverseList_eq_foldl f os _
end

theorem disposeNode_eq (c : NodeProps α) (log : List Disposable) :
    disposeNode c log = log ++ (if c.isMesh then c.resources else []) := by
  unfold disposeNode NodeProps.resources
  cases c.isMesh <;> cases c.geometry <;> cases c.material <;> simp

theorem foldl_disposeNode (ns : List (NodeProps α)) (log : List Disposable) :
    ns.foldl (fun t p => disposeNode p t) log =
      log ++ (ns.filter (fun c => c.isMesh)).flatMap NodeProps.resources := by
  induction ns generalizing log with
  | nil => simp
  | cons c ns ih =>
    rw [List.foldl_cons, ih, disposeNode_eq]
    cases hc : c.isMesh <;> simp [List.filter_cons, hc]

/-- The `dispose()` calls of `clearObject` on one object are exactly the resources of its
meshes, in traversal order. -/
theorem traverse_disposeNode (o : Object3D α) (log : List Disposable) :
    o.traverse disposeNode log = log ++ o.meshResources := by
  rw [traverse_eq_foldl, foldl_disposeNode]
  rfl

theorem map_id_sceneRemove (o : Object3D α) (l : List (Object3D α)) :
    (sceneRemove o l).map Object3D.id = (l.map Object3D.id).filter (fun i => i != o.id) := by
  unfold sceneRemove
  rw [List.filter_map]
  rfl

theorem map_id_sceneAdd (o : Object3D α) (l : List (Object3D α)) :
    (sceneAdd o l).map Object3D.id =
      (l.map Object3D.id).filter (fun i => i != o.id) ++ [o.id] := by
  unfold sceneAdd
  rw [List.map_append, map_id_sceneRemove]
  rfl

end ObjectLemmas

/-! ## Lemmas on lists of ids -/

/-- Replacing the occupant of a slot: when the ids of kind `E` present in `L` are those of
the occupant `prev`, removing `prev` and adding a new id `n` leaves `n` as the only id of
kind `E`, and does not touch the ids of a disjoint kind `P`. -/
theorem filter_replace (L E P : List Nat) (prev : Option Nat) (n : Nat)
    (hE : L.filter (fun i => decide (i ∈ E)) = prev.toList)
    (hnP : n ∉ P) (hd : ∀ x ∈ E, x ∉ P) :
    (((match prev with
        | none => L
        | some p => L.filter (fun i => i != p)).filter (fun i => i != n)) ++ [n]).filter
        (fun i => decide (i ∈ E ++ [n])) = [n] ∧
    (((match prev with
        | none => L
        | some p => L.filter (fun i => i != p)).filter (fun i => i != n)) ++ [n]).filter
        (fun i => decide (i ∈ P)) = L.filter (fun i => decide (i ∈ P)) := by
  have hmem : ∀ x, x ∈ L → x ∈ E → prev = some x := by
    intro x hx hxE
    have : x ∈ L.filter (fun i => decide (i ∈ E)) := by simp [List.mem_filter, hx, hxE]
    rw [hE] at this
    simpa [eq_comm] using this
  constructor
  · rw [List.filter_append]
    have h1 : ((match prev with
        | none => L
        | some p => L.filter (fun i => i != p)).filter (fun i => i != n)).filter
        (fun i => decide (i ∈ E ++ [n])) = [] := by
      rw [List.filter_eq_nil_iff]
      intro x hx
      rw [List.mem_filter] at hx
      obtain ⟨hx1, hx2⟩ := hx
      have hxn : x ≠ n := by simpa using hx2
      simp only [List.mem_append, List.mem_singleton, hxn, or_false, decide_eq_true_eq]
      intro hxE
      cases prev with
      | none => exact Option.noConfusion (hmem x hx1 hxE)
      | some p =>
        rw [List.mem_filter] at hx1
        have hxp : x ≠ p := by simpa using hx1.2
        exact hxp (Option.some.inj (hmem x hx1.1 hxE)).symm
    rw [h1]
    simp
  · rw [List.filter_append]
    have h2 : [n].filter (fun i => decide (i ∈ P)) = [] := by simp [hnP]
    rw [h2, List.append_nil, List.filter_filter]
    cases prev with
    | none =>
      apply List.filter_congr
      intro x _
      by_cases hxP : x ∈ P
      · have : x ≠ n := fun e => hnP (e ▸ hxP)
        simp [hxP, this]
      · simp [hxP]
    | some p =>
      rw [List.filter_filter]
      apply List.filter_congr
      intro x hx
      by_cases hxP : x ∈ P
      · have h3 : x ≠ n := fun e => hnP (e ▸ hxP)
        have hp : p ∈ E := by
          have : p ∈ L.filter (fun i => decide (i ∈ E)) := by rw [hE]; simp
          simpa using (List.mem_filter.mp this).2
        have h4 : x ≠ p := fun e => hd p hp (e ▸ hxP)
        simp [hxP, h3, h4]
      · simp [hxP]
/-! ## Lemmas on the loading callbacks and on runs -/

section RunLemmas
variable {α : Type}

theorem escenarioIds_append (xs ys : List (Event α)) :
    escenarioIds (xs ++ ys) = escenarioIds xs ++ escenarioIds ys := by
  induction xs with
  | nil => rfl
  | cons e es ih => cases e <;> simp [escenarioIds, ih]

theorem personajeIds_append (xs ys : List (Event α)) :
    personajeIds (xs ++ ys) = personajeIds xs ++ personajeIds ys := by
  induction xs with
  | nil => rfl
  | cons e es ih => cases e <;> simp [personajeIds, ih]

theorem run_append [LinearOrderedField α] (H : Host α) (xs ys : List (Event α)) (s : State α) :
    run H (xs ++ ys) s = run H ys (run H xs s) := by
  simp [run, List.foldl_append]

theorem clearObject_scene_ids (obj : Option (Object3D α)) (s : State α) :
    (clearObject obj s).scene.map Object3D.id =
      match obj.map Object3D.id with
      | none => s.scene.map Object3D.id
      | some p => (s.scene.map Object3D.id).filter (fun i => i != p) := by
  cases obj with
  | none => rfl
  | some o => exact map_id_sceneRemove o s.scene

theorem clearObject_disposed (obj : Option (Object3D α)) (s : State α) :
    (clearObject obj s).disposed =
      s.disposed ++ (match obj with
        | none => []
        | some o => o.meshResources) := by
  cases obj with
  | none => simp [clearObject]
  | some o => exact traverse_disposeNode o s.disposed

/-- The object `cargarEscenario` installs: the loaded root with shadows, scale and
position set. -/
theorem cargarEscenarioOnLoad_fields [LinearOrderedField α] (H : Host α) (fbx : Bool) (res : LoadResult α)
    (s : State α) :
    ∃ obj : Object3D α, obj.id = res.root.id ∧
      (cargarEscenarioOnLoad H fbx res s).currentEscenario = some obj ∧
      (cargarEscenarioOnLoad H fbx res s).scene =
        sceneAdd obj (clearObject s.currentEscenario s).scene ∧
      (cargarEscenarioOnLoad H fbx res s).disposed =
        (clearObject s.currentEscenario s).disposed ∧
      (cargarEscenarioOnLoad H fbx res s).currentPersonaje = s.currentPersonaje ∧
      (cargarEscenarioOnLoad H fbx res s).mixer = s.mixer ∧
      (cargarEscenarioOnLoad H fbx res s).isPaused = s.isPaused := by
  refine ⟨((if fbx then (res.root.traverseUpdate
      (fun c => { c with castShadow := true, receiveShadow := true })).setScale (1 / 100)
    else res.root.traverseUpdate
      (fun c => { c with castShadow := true, receiveShadow := true })).setPosition 0 0 0), ?_, ?_⟩
  · rcases res with ⟨⟨p, ch⟩, an⟩
    cases fbx <;> rfl
  · cases hc : s.currentEscenario <;>
      simp [cargarEscenarioOnLoad, fitSceneToCamera, setLoading, clearObject, hc]

theorem cargarPersonajeOnLoad_fields [LinearOrderedField α] (fbx : Bool) (res : LoadResult α) (s : State α) :
    ∃ obj : Object3D α, obj.id = res.root.id ∧
      (cargarPersonajeOnLoad fbx res s).currentPersonaje = some obj ∧
      (cargarPersonajeOnLoad fbx res s).scene =
        sceneAdd obj (clearObject s.currentPersonaje s).scene ∧
      (cargarPersonajeOnLoad fbx res s).disposed =
        (clearObject s.currentPersonaje s).disposed ∧
      (cargarPersonajeOnLoad fbx res s).currentEscenario = s.currentEscenario ∧
      (cargarPersonajeOnLoad fbx res s).isPaused = s.isPaused := by
  refine ⟨((if fbx then (res.root.traverseUpdate
      (fun c => { c with castShadow := true })).setScale (1 / 100)
    else res.root.traverseUpdate
      (fun c => { c with castShadow := true })).setPosition 0 0 0), ?_, ?_⟩
  · rcases res with ⟨⟨p, ch⟩, an⟩
    cases fbx <;> rfl
  · cases hc : s.currentPersonaje <;> cases hcl : res.animations.getD [] <;>
      simp [cargarPersonajeOnLoad, setLoading, clearObject, hc, hcl]

end RunLemmas

/-! ## The slot invariant -/

section SlotInvariant
variable {α : Type}

theorem step_frame [LinearOrderedField α] (H : Host α) (s : State α) (e : Event α)
    (he : escenarioIds [e] = []) (hp : personajeIds [e] = []) :
    (step H s e).scene = s.scene ∧ (step H s e).currentEscenario = s.currentEscenario ∧
      (step H s e).currentPersonaje = s.currentPersonaje ∧
      (step H s e).disposed = s.disposed := by
  cases e with
  | escenarioLoaded fbx res => simp [escenarioIds] at he
  | personajeLoaded fbx res => simp [personajeIds] at hp
  | centrar => simp [step, btnCentrarOnClick]
  | playPause => simp [step, btnPlayPauseOnClick]
  | resize w h => simp [step, onResize]
  | tick dt chk xr =>
    simp only [step, animate]
    cases s.mixer <;> cases s.isPaused <;> cases chk <;> cases xr <;> simp
  | loadEscenario url =>
    simp only [step, cargarEscenario]
    split <;> simp [setLoading]
  | loadPersonaje url =>
    simp only [step, cargarPersonaje]
    split <;> simp [setLoading]
  | loadAnimacion url =>
    simp only [step, cargarAnimacionFBX]
    split <;> simp [setLoading]
  | escenarioFailed err => simp [step, cargarEscenarioOnError, setLoading]
  | personajeFailed err => simp [step, cargarPersonajeOnError, setLoading]
  | animacionLoaded animObj =>
    simp only [step, cargarAnimacionFBXOnLoad]
    split <;> simp [setLoading]
  | animacionFailed err => simp [step, cargarAnimacionFBXOnError, setLoading]

theorem slotsInv_escenarioLoaded [LinearOrderedField α] (H : Host α) (E P : List Nat)
    (s : State α) (fbx : Bool) (res : LoadResult α) (hinv : SlotsInv E P s)
    (hnP : res.root.id ∉ P) (hd : ∀ x ∈ E, x ∉ P) :
    SlotsInv (E ++ [res.root.id]) P (cargarEscenarioOnLoad H fbx res s) := by
  obtain ⟨obj, hid, hcur, hsc, _, hper, _, _⟩ := cargarEscenarioOnLoad_fields H fbx res s
  have key := filter_replace (s.scene.map Object3D.id) E P
    (s.currentEscenario.map Object3D.id) res.root.id hinv.1 hnP hd
  have hscene : (cargarEscenarioOnLoad H fbx res s).scene.map Object3D.id =
      ((match s.currentEscenario.map Object3D.id with
        | none => s.scene.map Object3D.id
        | some p => (s.scene.map Object3D.id).filter (fun i => i != p)).filter
          (fun i => i != res.root.id)) ++ [res.root.id] := by
    rw [hsc, map_id_sceneAdd, clearObject_scene_ids, hid]
  constructor
  · rw [hscene, hcur, key.1]
    simp [hid]
  · rw [hscene, hper, key.2]
    exact hinv.2

theorem slotsInv_personajeLoaded [LinearOrderedField α] (E P : List Nat)
    (s : State α) (fbx : Bool) (res : LoadResult α) (hinv : SlotsInv E P s)
    (hnE : res.root.id ∉ E) (hd : ∀ x ∈ P, x ∉ E) :
    SlotsInv E (P ++ [res.root.id]) (cargarPersonajeOnLoad fbx res s) := by
  obtain ⟨obj, hid, hcur, hsc, _, hesc, _⟩ := cargarPersonajeOnLoad_fields fbx res s
  have key := filter_replace (s.scene.map Object3D.id) P E
    (s.currentPersonaje.map Object3D.id) res.root.id hinv.2 hnE hd
  have hscene : (cargarPersonajeOnLoad fbx res s).scene.map Object3D.id =
      ((match s.currentPersonaje.map Object3D.id with
        | none => s.scene.map Object3D.id
        | some p => (s.scene.map Object3D.id).filter (fun i => i != p)).filter
          (fun i => i != res.root.id)) ++ [res.root.id] := by
    rw [hsc, map_id_sceneAdd, clearObject_scene_ids, hid]
  constructor
  · rw [hscene, hesc, key.2]
    exact hinv.1
  · rw [hscene, hcur, key.1]
    simp [hid]

theorem freshLoads_of_append (xs ys : List (Event α)) (h : FreshLoads (xs ++ ys)) :
    FreshLoads xs := by
  unfold FreshLoads at h ⊢
  rw [escenarioIds_append, personajeIds_append] at h
  refine List.Nodup.sublist ?_ h
  exact List.Sublist.append (List.sublist_append_left _ _) (List.sublist_append_left _ _)

theorem slotsInv_step [LinearOrderedField α] (H : Host α) (evs : List (Event α)) (e : Event α)
    (s : State α) (hf : FreshLoads (evs ++ [e]))
    (hinv : SlotsInv (escenarioIds evs) (personajeIds evs) s) :
    SlotsInv (escenarioIds (evs ++ [e])) (personajeIds (evs ++ [e])) (step H s e) := by
  have hnd := hf
  unfold FreshLoads at hnd
  rw [escenarioIds_append, personajeIds_append] at hnd ⊢
  have hdisj : ∀ x ∈ escenarioIds evs, x ∉ personajeIds evs := by
    intro x hxE hxP
    have h1 := (List.nodup_append.mp hnd).2.2
    exact h1 (List.mem_append_left _ hxE) (List.mem_append_left _ hxP)
  have hframe : ∀ e : Event α, escenarioIds [e] = [] → personajeIds [e] = [] →
      SlotsInv (escenarioIds evs ++ escenarioIds [e]) (personajeIds evs ++ personajeIds [e])
        (step H s e) := by
    intro e h1 h2
    obtain ⟨h3, h4, h5, _⟩ := step_frame H s e h1 h2
    rw [h1, h2, List.append_nil, List.append_nil]
    unfold SlotsInv
    rw [h3, h4, h5]
    exact hinv
  cases e with
  | escenarioLoaded fbx res =>
    have hnP : res.root.id ∉ personajeIds evs := by
      intro hxP
      have h1 := (List.nodup_append.mp hnd).2.2
      exact h1 (List.mem_append_right _ (by simp [escenarioIds])) (List.mem_append_left _ hxP)
    simpa [escenarioIds, personajeIds, step] using
      slotsInv_escenarioLoaded H _ _ s fbx res hinv hnP hdisj
  | personajeLoaded fbx res =>
    have hnE : res.root.id ∉ escenarioIds evs := by
      intro hxE
      have h1 := (List.nodup_append.mp hnd).2.2
      exact h1 (List.mem_append_left _ hxE) (List.mem_append_right _ (by simp [personajeIds]))
    simpa [escenarioIds, personajeIds, step] using
      slotsInv_personajeLoaded _ _ s fbx res hinv hnE (fun x hxP hxE => hdisj x hxE hxP)
  | centrar | playPause | resize _ _ | tick _ _ _ | loadEscenario _ | loadPersonaje _
  | loadAnimacion _ | escenarioFailed _ | personajeFailed _ | animacionLoaded _
  | animacionFailed _ => exact hframe _ rfl rfl

theorem slotsInv_run [LinearOrderedField α] (H : Host α) (s0 : State α)
    (h0e : s0.currentEscenario = none) (h0p : s0.currentPersonaje = none) :
    ∀ evs : List (Event α), FreshLoads evs →
      SlotsInv (escenarioIds evs) (personajeIds evs) (run H evs s0) := by
  intro evs
  induction evs using List.reverseRecOn with
  | nil =>
    intro _
    simp [SlotsInv, run, escenarioIds, personajeIds, h0e, h0p]
  | append_singleton evs e ih =>
    intro hf
    rw [run_append]
    exact slotsInv_step H evs e _ hf (ih (freshLoads_of_append evs [e] hf))

theorem init_slots [LinearOrderedField α] (H : Host α) (dom : Dom α) :
    (init H dom).1.currentEscenario = none ∧ (init H dom).1.currentPersonaje = none := by
  simp only [init, cargarEscenario, cargarPersonaje]
  constructor <;> (split <;> split <;> rfl)

end SlotInvariant

/-! ## The mixer invariant -/

section MixerInvariant
variable {α : Type}

theorem cargarPersonajeOnLoad_mixer [LinearOrderedField α] (fbx : Bool) (res : LoadResult α)
    (s : State α) (c : AnimationClip) (cs : List AnimationClip)
    (h : res.animations = some (c :: cs)) :
    (cargarPersonajeOnLoad fbx res s).mixer =
      some { root := some res.root.id,
             actions := [{ clip := c, active := true, time := 0 }], time := 0 } := by
  rcases res with ⟨⟨p, ch⟩, an⟩
  simp only at h
  subst h
  cases fbx <;> cases hc : s.currentPersonaje <;>
    simp [cargarPersonajeOnLoad, setLoading, AnimationMixer.create, AnimationMixer.clipAction,
      AnimationMixer.resetPlay, Object3D.id, Object3D.props, Object3D.setPosition,
      Object3D.setScale, Object3D.traverseUpdate]

theorem cargarPersonajeOnLoad_mixer_none [LinearOrderedField α] (fbx : Bool)
    (res : LoadResult α) (s : State α) (h : res.animations.getD [] = []) :
    (cargarPersonajeOnLoad fbx res s).mixer = s.mixer := by
  cases hc : s.currentPersonaje <;>
    simp [cargarPersonajeOnLoad, setLoading, clearObject, h, hc]

theorem cargarAnimacionFBXOnLoad_mixer [LinearOrderedField α] (animObj : LoadResult α)
    (s : State α) (c : AnimationClip) (cs : List AnimationClip)
    (h : animObj.animations = some (c :: cs)) :
    ∃ m, (cargarAnimacionFBXOnLoad animObj s).mixer = some m ∧ m.activeClips = [c] ∧
      m.root = (match s.mixer with
        | some m0 => m0.root
        | none => s.currentPersonaje.map Object3D.id) := by
  cases hm : s.mixer with
  | none =>
    refine ⟨_, ?_, activeClips_clipAction_resetPlay
      (AnimationMixer.create s.currentPersonaje).stopAllAction c
      (stopAllAction_inactive _), ?_⟩
    · simp [cargarAnimacionFBXOnLoad, h, hm, setLoading]
    · simp only [AnimationMixer.resetPlay, AnimationMixer.clipAction]
      split <;> rfl
  | some m0 =>
    refine ⟨_, ?_, activeClips_clipAction_resetPlay m0.stopAllAction c
      (stopAllAction_inactive _), ?_⟩
    · simp [cargarAnimacionFBXOnLoad, h, hm, setLoading]
    · simp only [AnimationMixer.resetPlay, AnimationMixer.clipAction]
      split <;> rfl

theorem animate_mixer [LinearOrderedField α] (H : Host α) (dt : α) (chk xr : Bool)
    (s : State α) :
    (animate H dt chk xr s).1.mixer =
      if s.isPaused then s.mixer else s.mixer.map (fun m => m.update dt) := by
  unfold animate
  cases hm : s.mixer <;> cases hp : s.isPaused <;> cases chk <;> cases xr <;> simp [hm, hp]

theorem mixerInv_step [LinearOrderedField α] (H : Host α) (s : State α) (e : Event α)
    (hinv : MixerInv s) : MixerInv (step H s e) := by
  cases e with
  | centrar => exact hinv
  | playPause => exact hinv
  | resize w h => exact hinv
  | tick dt chk xr =>
    intro m hm
    have hmix := animate_mixer H dt chk xr s
    simp only [step, hmix] at hm
    cases hp : s.isPaused with
    | true =>
      rw [hp] at hm
      exact hinv m hm
    | false =>
      rw [hp] at hm
      cases hs : s.mixer with
      | none => simp [hs] at hm
      | some m0 =>
        simp [hs] at hm
        subst hm
        rw [activeClips_update]
        exact hinv m0 hs
  | loadEscenario url =>
    intro m hm
    have : (step H s (Event.loadEscenario url)).mixer = s.mixer := by
      simp only [step, cargarEscenario]
      split <;> rfl
    rw [this] at hm
    exact hinv m hm
  | loadPersonaje url =>
    intro m hm
    have : (step H s (Event.loadPersonaje url)).mixer = s.mixer := by
      simp only [step, cargarPersonaje]
      split <;> rfl
    rw [this] at hm
    exact hinv m hm
  | loadAnimacion url =>
    intro m hm
    have : (step H s (Event.loadAnimacion url)).mixer = s.mixer := by
      simp only [step, cargarAnimacionFBX]
      split <;> rfl
    rw [this] at hm
    exact hinv m hm
  | escenarioLoaded fbx res =>
    intro m hm
    obtain ⟨_, _, _, _, _, _, hmx, _⟩ := cargarEscenarioOnLoad_fields H fbx res s
    simp only [step, hmx] at hm
    exact hinv m hm
  | escenarioFailed err => exact hinv
  | personajeLoaded fbx res =>
    intro m hm
    simp only [step] at hm
    cases hcl : res.animations with
    | none =>
      rw [cargarPersonajeOnLoad_mixer_none fbx res s (by simp [hcl])] at hm
      exact hinv m hm
    | some clips =>
      cases clips with
      | nil =>
        rw [cargarPersonajeOnLoad_mixer_none fbx res s (by simp [hcl])] at hm
        exact hinv m hm
      | cons c cs =>
        rw [cargarPersonajeOnLoad_mixer fbx res s c cs hcl] at hm
        cases hm
        simp [AnimationMixer.activeClips]
  | personajeFailed err => exact hinv
  | animacionLoaded animObj =>
    intro m hm
    simp only [step] at hm
    cases hcl : animObj.animations with
    | none =>
      have : (cargarAnimacionFBXOnLoad animObj s).mixer = s.mixer := by
        simp [cargarAnimacionFBXOnLoad, hcl, setLoading]
      rw [this] at hm
      exact hinv m hm
    | some clips =>
      cases clips with
      | nil =>
        have : (cargarAnimacionFBXOnLoad animObj s).mixer = s.mixer := by
          simp [cargarAnimacionFBXOnLoad, hcl, setLoading]
        rw [this] at hm
        exact hinv m hm
      | cons c cs =>
        obtain ⟨m1, h1, h2, _⟩ := cargarAnimacionFBXOnLoad_mixer animObj s c cs hcl
        rw [h1] at hm
        cases hm
        simp [h2]
  | animacionFailed err => exact hinv

theorem mixerInv_run [LinearOrderedField α] (H : Host α) (s0 : State α) (h0 : MixerInv s0)
    (evs : List (Event α)) : MixerInv (run H evs s0) := by
  induction evs generalizing s0 with
  | nil => exact h0
  | cons e es ih => exact ih (step H s0 e) (mixerInv_step H s0 e h0)

theorem init_mixer [LinearOrderedField α] (H : Host α) (dom : Dom α) :
    (init H dom).1.mixer = none := by
  simp only [init, cargarEscenario, cargarPersonaje]
  split <;> split <;> rfl

end MixerInvariant

/-! ## The claims -/

/-- Claim C2, as stated, fails when the viewer is paused: a character with one clip is
loaded into the paused state `pausedQ`; the flag `isPaused` is still set after the
callback, and a tick of `animate` with one second elapsed leaves the new mixer where it
was, at time zero. -/
theorem personaje_loaded_while_paused_stays_still :
    (cargarPersonajeOnLoad true (resQ 10 (some [⟨0⟩])) pausedQ).isPaused = true ∧
    (cargarPersonajeOnLoad true (resQ 10 (some [⟨0⟩])) pausedQ).mixer.map
        (fun m => m.time) = some 0 ∧
    (animate hostQ 1 false false
        (cargarPersonajeOnLoad true (resQ 10 (some [⟨0⟩])) pausedQ)).1.mixer =
      (cargarPersonajeOnLoad true (resQ 10 (some [⟨0⟩])) pausedQ).mixer := by
  refine ⟨rfl, rfl, rfl⟩

/-- Claim C2, amended: after the success callback of `cargarPersonaje` on a result whose
clips are `c :: cs`, from any state, the character slot holds the loaded object, the mixer
is a fresh one bound to it (time zero) whose only action plays `c`, the first clip, and is
running; the flag `isPaused` is what it was, and the next tick of `animate` advances the
mixer and its action by `dt` when `isPaused` is false and leaves them alone otherwise. -/
theorem personaje_load_binds_first_clip {α : Type} [LinearOrderedField α] (H : Host α)
    (fbx : Bool) (res : LoadResult α) (s : State α) (c : AnimationClip)
    (cs : List AnimationClip) (h : res.animations = some (c :: cs)) :
    (cargarPersonajeOnLoad fbx res s).currentPersonaje.map Object3D.id = some res.root.id ∧
    (cargarPersonajeOnLoad fbx res s).mixer =
      some { root := some res.root.id,
             actions := [{ clip := c, active := true, time := 0 }], time := 0 } ∧
    (cargarPersonajeOnLoad fbx res s).isPaused = s.isPaused ∧
    (∀ (dt : α) (chk xr : Bool),
      (animate H dt chk xr (cargarPersonajeOnLoad fbx res s)).1.mixer =
        if s.isPaused then (cargarPersonajeOnLoad fbx res s).mixer
        else some { root := some res.root.id,
                    actions := [{ clip := c, active := true, time := 0 + dt }],
                    time := 0 + dt }) := by
  obtain ⟨obj, hid, hcur, _, _, _, hp⟩ := cargarPersonajeOnLoad_fields fbx res s
  have hm := cargarPersonajeOnLoad_mixer fbx res s c cs h
  refine ⟨by rw [hcur]; simp [hid], hm, hp, ?_⟩
  intro dt chk xr
  rw [animate_mixer, hp, hm]
  cases s.isPaused <;> simp [AnimationMixer.update]

/-- Claim C2, amended, on the paused state `pausedQ` and a character with two clips. -/
theorem personaje_load_binds_first_clip_witness :
    (resQ 10 (some [⟨0⟩, ⟨1⟩])).animations = some [⟨0⟩, ⟨1⟩] ∧
    (cargarPersonajeOnLoad true (resQ 10 (some [⟨0⟩, ⟨1⟩])) pausedQ).mixer =
      some { root := some 10, actions := [{ clip := ⟨0⟩, active := true, time := 0 }],
             time := 0 } :=
  ⟨rfl, (personaje_load_binds_first_clip hostQ true (resQ 10 (some [⟨0⟩, ⟨1⟩])) pausedQ
    ⟨0⟩ [⟨1⟩] rfl).2.1⟩

/-- Claim C3 fails on the code: a character with a clip (object 10) is loaded, then a
character without clips (object 11).  The second load removes object 10 from the scene
but keeps the mixer bound to it; an animation loaded afterwards is started on that stale
mixer, not on the current character. -/
theorem stale_mixer_after_clipless_personaje :
    (run hostQ replacedQ startQ).currentPersonaje.map Object3D.id = some 11 ∧
    (run hostQ replacedQ startQ).mixer.map (fun m => m.root) = some (some 10) ∧
    10 ∉ (run hostQ replacedQ startQ).scene.map Object3D.id ∧
    (run hostQ replacedThenAnimatedQ startQ).currentPersonaje.map Object3D.id = some 11 ∧
    (run hostQ replacedThenAnimatedQ startQ).mixer.map (fun m => m.root) = some (some 10) ∧
    (run hostQ replacedThenAnimatedQ startQ).mixer.map (fun m => m.activeClips) =
      some [⟨1⟩] := by
  decide

/-- Claim C5: `cargarAnimacionFBX` called without a character writes one warning to the
console and starts no load; every other part of the state (scene, slots, mixer, pause
flag, loading overlay) is unchanged. -/
theorem animacion_without_personaje_is_rejected {α : Type} [LinearOrderedField α]
    (url : JSString) (s : State α) (h : s.currentPersonaje = none) :
    cargarAnimacionFBX url s =
      ({ s with console := s.console ++
          [ConsoleEntry.warn "Primero carga un personaje para aplicar la animación."] },
        none) := by
  unfold cargarAnimacionFBX
  rw [h]

/-- Claim C5, on the state after `init()`, where no character has arrived yet. -/
theorem animacion_without_personaje_is_rejected_witness :
    startQ.currentPersonaje = none ∧
    cargarAnimacionFBX "walk.fbx".toList startQ =
      ({ startQ with console := startQ.console ++
          [ConsoleEntry.warn "Primero carga un personaje para aplicar la animación."] },
        none) :=
  ⟨rfl, animacion_without_personaje_is_rejected "walk.fbx".toList startQ rfl⟩

/-- Claim C6: on a URL `base.ext`, with or without a query `?query` after it, where `ext`
has no `.` or `?` and `base` has no `?`, `getExt` returns `ext` lower-cased; so both
`cargarEscenario` and `cargarPersonaje` call the FBX loader when the lower-cased `ext` is
`fbx` and the GLTF loader otherwise, on that URL.  In particular, on any host that
lower-cases `fbx` to itself, `model.fbx?v=2` has extension `fbx` and goes to the FBX
loader. -/
theorem getExt_selects_loader {α : Type} [LinearOrderedField α] (H : Host α) (s : State α) :
    (∀ base ext query url : JSString, '?' ∉ base → '.' ∉ ext → '?' ∉ ext →
      (url = base ++ '.' :: ext ∨ url = base ++ '.' :: ext ++ '?' :: query) →
      getExt H url = H.toLowerCase ext ∧
      useFBX H url = decide (H.toLowerCase ext = "fbx".toList) ∧
      (cargarEscenario H url s).2 =
        some { loader := if H.toLowerCase ext = "fbx".toList then LoaderKind.fbx
                         else LoaderKind.gltf,
               url := url } ∧
      (cargarPersonaje H url s).2 =
        some { loader := if H.toLowerCase ext = "fbx".toList then LoaderKind.fbx
                         else LoaderKind.gltf,
               url := url }) ∧
    (H.toLowerCase "fbx".toList = "fbx".toList →
      getExt H "model.fbx?v=2".toList = "fbx".toList ∧
      (cargarEscenario H "model.fbx?v=2".toList s).2 =
        some { loader := LoaderKind.fbx, url := "model.fbx?v=2".toList } ∧
      (cargarPersonaje H "model.fbx?v=2".toList s).2 =
        some { loader := LoaderKind.fbx, url := "model.fbx?v=2".toList }) := by
  have main : ∀ base ext query url : JSString, '?' ∉ base → '.' ∉ ext → '?' ∉ ext →
      (url = base ++ '.' :: ext ∨ url = base ++ '.' :: ext ++ '?' :: query) →
      getExt H url = H.toLowerCase ext ∧
      useFBX H url = decide (H.toLowerCase ext = "fbx".toList) ∧
      (cargarEscenario H url s).2 =
        some { loader := if H.toLowerCase ext = "fbx".toList then LoaderKind.fbx
                         else LoaderKind.gltf,
               url := url } ∧
      (cargarPersonaje H url s).2 =
        some { loader := if H.toLowerCase ext = "fbx".toList then LoaderKind.fbx
                         else LoaderKind.gltf,
               url := url } := by
    intro base ext query url hb hd hq hurl
    have hext : getExt H url = H.toLowerCase ext := by
      rcases hurl with rfl | rfl
      · exact getExt_plain H base ext hb hd hq
      · exact getExt_query H base ext query hb hd hq
    have hne : url ≠ [] := by
      rcases hurl with rfl | rfl <;> simp
    have hfbx : useFBX H url = decide (H.toLowerCase ext = "fbx".toList) := by
      simp only [useFBX, hext]
    refine ⟨hext, hfbx, ?_, ?_⟩
    · simp only [cargarEscenario, if_neg hne, hfbx]
      by_cases hl : H.toLowerCase ext = "fbx".toList <;> simp [hl]
    · simp only [cargarPersonaje, if_neg hne, hfbx]
      by_cases hl : H.toLowerCase ext = "fbx".toList <;> simp [hl]
  refine ⟨main, ?_⟩
  intro hlow
  have h := main "model".toList "fbx".toList "v=2".toList "model.fbx?v=2".toList
    (by decide) (by decide) (by decide) (Or.inr (by decide))
  rw [hlow] at h
  simpa using ⟨h.1, h.2.2⟩

/-- Claim C6, on the host `hostQ` for `model.FBX?v=2` and for `scene.glb`. -/
theorem getExt_selects_loader_witness :
    '?' ∉ "model".toList ∧ '.' ∉ "FBX".toList ∧ '?' ∉ "FBX".toList ∧
    getExt hostQ "model.FBX?v=2".toList = "fbx".toList ∧
    (cargarEscenario hostQ "model.FBX?v=2".toList startQ).2 =
      some { loader := LoaderKind.fbx, url := "model.FBX?v=2".toList } ∧
    (cargarPersonaje hostQ "scene.glb".toList startQ).2 =
      some { loader := LoaderKind.gltf, url := "scene.glb".toList } ∧
    hostQ.toLowerCase "fbx".toList = "fbx".toList ∧
    getExt hostQ "model.fbx?v=2".toList = "fbx".toList :=
  ⟨by decide, by decide, by decide,
   ((getExt_selects_loader hostQ startQ).1 "model".toList "FBX".toList "v=2".toList
      "model.FBX?v=2".toList (by decide) (by decide) (by decide) (Or.inr rfl)).1,
   ((getExt_selects_loader hostQ startQ).1 "model".toList "FBX".toList "v=2".toList
      "model.FBX?v=2".toList (by decide) (by decide) (by decide) (Or.inr rfl)).2.2.1,
   ((getExt_selects_loader hostQ startQ).1 "scene".toList "glb".toList [] "scene.glb".toList
      (by decide) (by decide) (by decide) (Or.inl rfl)).2.2.2,
   by decide,
   ((getExt_selects_loader hostQ startQ).2 (by decide)).1⟩

/-- Claim C7: over any ordered field, `fitSceneToCamera` hands to `controls.update()` the
orbit target `c`, the centre of the bounding box, and the camera position
`c + (0, 1.6, fitDist * 0.5)` with `fitDist = max(sx, sy, sz) / (2 * tan(fov / 2))`, the
angle being converted from degrees.  Over the reals the divisor is positive whenever
`0 < fov < 180`, and for a box of size `(10, 2, 4)` and `fov = 70` the fit distance is
`10 / (2 * tan(35°))`. -/
theorem fitSceneToCamera_frames_box :
    (∀ (α : Type) [LinearOrderedField α] (H : Host α) (root : Object3D α) (s : State α),
      fitSceneToCamera H root s =
        (let c := (H.setFromObject root).getCenter
         let size := (H.setFromObject root).getSize
         let fitDist :=
           max size.x (max size.y size.z) / (2 * H.tan (s.camera.fov / 2 * (H.PI / 180)))
         let cc := H.controlsUpdate
           ({ s.camera with position := ⟨c.x + 0, c.y + 16 / 10, c.z + fitDist * (1 / 2)⟩ },
            { s.controls with target := c })
         { s with camera := cc.1, controls := cc.2 })) ∧
    (∀ fov : ℝ, 0 < fov → fov < 180 → 0 < 2 * Real.tan (fov / 2 * (Real.pi / 180))) ∧
    (∀ (H : Host ℝ) (root : Object3D ℝ) (s : State ℝ) (c : Vector3 ℝ),
      H.tan = Real.tan → H.PI = Real.pi →
      (H.setFromObject root).getCenter = c →
      (H.setFromObject root).getSize = ⟨10, 2, 4⟩ →
      s.camera.fov = 70 →
      fitSceneToCamera H root s =
        (let fitDist := 10 / (2 * Real.tan (35 * (Real.pi / 180)))
         let cc := H.controlsUpdate
           ({ s.camera with position := ⟨c.x + 0, c.y + 16 / 10, c.z + fitDist * (1 / 2)⟩ },
            { s.controls with target := c })
         { s with camera := cc.1, controls := cc.2 })) := by
  refine ⟨fun α _ H root s => rfl, ?_, ?_⟩
  · intro fov h0 h1
    have hpi := Real.pi_pos
    have h2 : 0 < fov / 2 * (Real.pi / 180) := by positivity
    have h3 : fov / 2 * (Real.pi / 180) < Real.pi / 2 := by
      have e : fov / 2 * (Real.pi / 180) = fov / 180 * (Real.pi / 2) := by ring
      rw [e]
      have h4 : fov / 180 < 1 := by rw [div_lt_one (by norm_num)]; exact h1
      nlinarith
    have := Real.tan_pos_of_pos_of_lt_pi_div_two h2 h3
    linarith
  · intro H root s c hT hP hc hs hf
    have e : fitSceneToCamera H root s =
        (let c := (H.setFromObject root).getCenter
         let size := (H.setFromObject root).getSize
         let fitDist :=
           max size.x (max size.y size.z) / (2 * H.tan (s.camera.fov / 2 * (H.PI / 180)))
         let cc := H.controlsUpdate
           ({ s.camera with position := ⟨c.x + 0, c.y + 16 / 10, c.z + fitDist * (1 / 2)⟩ },
            { s.controls with target := c })
         { s with camera := cc.1, controls := cc.2 }) := rfl
    rw [e]
    simp only [hc, hs, hf, hT, hP]
    norm_num

/-- Claim C7, over the reals: a box from `(0, 0, 0)` to `(10, 2, 4)`, seen by the camera of
`init` (`fov = 70`) with controls at rest, puts the orbit target at the centre `(5, 1, 2)`
and the camera at `(5, 2.6, 2 + 10 / (2 * tan(35°)) * 0.5)`. -/
theorem fitSceneToCamera_frames_box_witness :
    (0 : ℝ) < 70 ∧ (70 : ℝ) < 180 ∧
    0 < 2 * Real.tan ((70 : ℝ) / 2 * (Real.pi / 180)) ∧
    (fitSceneToCamera (hostWith Real.tan Real.pi ⟨⟨0, 0, 0⟩, ⟨10, 2, 4⟩⟩) ambientLight
        (initialState (hostWith Real.tan Real.pi ⟨⟨0, 0, 0⟩, ⟨10, 2, 4⟩⟩)
          ⟨800, 600, true, "Pausar animación"⟩)).controls.target = ⟨5, 1, 2⟩ ∧
    (fitSceneToCamera (hostWith Real.tan Real.pi ⟨⟨0, 0, 0⟩, ⟨10, 2, 4⟩⟩) ambientLight
        (initialState (hostWith Real.tan Real.pi ⟨⟨0, 0, 0⟩, ⟨10, 2, 4⟩⟩)
          ⟨800, 600, true, "Pausar animación"⟩)).camera.position =
      ⟨5 + 0, 1 + 16 / 10, 2 + 10 / (2 * Real.tan (35 * (Real.pi / 180))) * (1 / 2)⟩ := by
  have hbox : ¬ (Box3.isEmpty (⟨⟨0, 0, 0⟩, ⟨10, 2, 4⟩⟩ : Box3 ℝ) = true) := by
    simp [Box3.isEmpty]
  have hc : ((hostWith Real.tan Real.pi ⟨⟨0, 0, 0⟩, ⟨10, 2, 4⟩⟩).setFromObject
      (ambientLight : Object3D ℝ)).getCenter = ⟨5, 1, 2⟩ := by
    simp only [hostWith, Box3.getCenter, if_neg hbox, Vector3.add, Vector3.multiplyScalar]
    norm_num
  have hs : ((hostWith Real.tan Real.pi ⟨⟨0, 0, 0⟩, ⟨10, 2, 4⟩⟩).setFromObject
      (ambientLight : Object3D ℝ)).getSize = ⟨10, 2, 4⟩ := by
    simp only [hostWith, Box3.getSize, if_neg hbox, Vector3.sub]
    norm_num
  have h := fitSceneToCamera_frames_box.2.2
    (hostWith Real.tan Real.pi ⟨⟨0, 0, 0⟩, ⟨10, 2, 4⟩⟩) ambientLight
    (initialState (hostWith Real.tan Real.pi ⟨⟨0, 0, 0⟩, ⟨10, 2, 4⟩⟩)
      ⟨800, 600, true, "Pausar animación"⟩) ⟨5, 1, 2⟩ rfl rfl hc hs rfl
  refine ⟨by norm_num, by norm_num,
    fitSceneToCamera_frames_box.2.1 70 (by norm_num) (by norm_num), ?_, ?_⟩
  · rw [h]
    rfl
  · rw [h]
    rfl

/-- Claim C9: two clicks on play/pause bring `isPaused` back and leave every other part of
the state as it was (the slots, the mixer and its actions among them), the button label
being the one that goes with the flag; and a tick of `animate` with elapsed time `dt`
replaces the mixer by the mixer advanced by `dt` (mixer time plus `dt`, same running
clips) when `isPaused` is false, and leaves the mixer as it is when `isPaused` is true. -/
theorem playPause_twice_and_tick {α : Type} [LinearOrderedField α] (H : Host α)
    (s : State α) :
    btnPlayPauseOnClick (btnPlayPauseOnClick s) =
      { s with btnPlayPauseText :=
          if s.isPaused then "Reanudar animación" else "Pausar animación" } ∧
    (btnPlayPauseOnClick (btnPlayPauseOnClick s)).isPaused = s.isPaused ∧
    (∀ (dt : α) (chk xr : Bool),
      (animate H dt chk xr s).1.mixer =
        if s.isPaused then s.mixer else s.mixer.map (fun m => m.update dt)) ∧
    (∀ (m : AnimationMixer α) (dt : α),
      (m.update dt).time = m.time + dt ∧ (m.update dt).activeClips = m.activeClips ∧
      (m.update dt).actions =
        m.actions.map (fun a => if a.active then { a with time := a.time + dt } else a)) := by
  have h1 : btnPlayPauseOnClick (btnPlayPauseOnClick s) =
      { s with btnPlayPauseText :=
          if s.isPaused then "Reanudar animación" else "Pausar animación" } := by
    cases s with
    | mk sc cam ctl mx ce cp ip ld bt co di =>
      cases ip <;> simp [btnPlayPauseOnClick]
  refine ⟨h1, by rw [h1], fun dt chk xr => animate_mixer H dt chk xr s, ?_⟩
  intro m dt
  exact ⟨rfl, activeClips_update m dt, rfl⟩

/-- Claim C10: in every state reached from `init()` the mixer, if there is one, runs at
most one action; and the success callbacks of `cargarPersonaje` and of
`cargarAnimacionFBX`, on a result whose clips are `c :: cs` and from any state, leave a
mixer whose running clips are exactly `[c]`, the clip of index 0. -/
theorem mixer_runs_at_most_one_action {α : Type} [LinearOrderedField α] (H : Host α)
    (dom : Dom α) :
    (∀ (evs : List (Event α)) (m : AnimationMixer α),
      (run H evs (init H dom).1).mixer = some m → m.activeClips.length ≤ 1) ∧
    (∀ (s : State α) (fbx : Bool) (res : LoadResult α) (c : AnimationClip)
        (cs : List AnimationClip), res.animations = some (c :: cs) →
      ∃ m, (cargarPersonajeOnLoad fbx res s).mixer = some m ∧ m.activeClips = [c]) ∧
    (∀ (s : State α) (animObj : LoadResult α) (c : AnimationClip)
        (cs : List AnimationClip), animObj.animations = some (c :: cs) →
      ∃ m, (cargarAnimacionFBXOnLoad animObj s).mixer = some m ∧ m.activeClips = [c]) := by
  refine ⟨?_, ?_, ?_⟩
  · intro evs
    apply mixerInv_run H (init H dom).1
    intro m hm
    rw [init_mixer] at hm
    exact Option.noConfusion hm
  · intro s fbx res c cs h
    exact ⟨_, cargarPersonajeOnLoad_mixer fbx res s c cs h, by simp [AnimationMixer.activeClips]⟩
  · intro s animObj c cs h
    obtain ⟨m, h1, h2, _⟩ := cargarAnimacionFBXOnLoad_mixer animObj s c cs h
    exact ⟨m, h1, h2⟩

/-- Claim C10, on the run `replacedThenAnimatedQ`, whose last load starts clip 1 on a mixer
that was running clip 0. -/
theorem mixer_runs_at_most_one_action_witness :
    (resQ 12 (some [⟨1⟩, ⟨2⟩])).animations = some [⟨1⟩, ⟨2⟩] ∧
    (∃ m, (run hostQ replacedThenAnimatedQ (init hostQ domQ).1).mixer = some m ∧
      m.activeClips.length ≤ 1) ∧
    (∃ m, (cargarAnimacionFBXOnLoad (resQ 12 (some [⟨1⟩, ⟨2⟩]))
        (run hostQ replacedQ startQ)).mixer = some m ∧ m.activeClips = [⟨1⟩]) :=
  ⟨rfl,
   ⟨_, rfl, (mixer_runs_at_most_one_action hostQ domQ).1 replacedThenAnimatedQ _ rfl⟩,
   (mixer_runs_at_most_one_action hostQ domQ).2.2 (run hostQ replacedQ startQ)
     (resQ 12 (some [⟨1⟩, ⟨2⟩])) ⟨1⟩ [⟨2⟩] rfl⟩

end Viewer
